import Mathlib

/-!
Verification of the stake-pool SDK's deposit/withdrawal accounting engine and
validator-withdrawal allocator (src/src/stake-pool/utils.ts), its u64 integer
type (src/src/stake-pool/types.ts), and the transaction-sequence builder and
executor (depositSolTransactions / updateValidatorListBalanceTransactions and
signAndSendTransactionSequence).

Modelling conventions:
* `Numberu64` extends bn.js `BN`, an arbitrary-precision signed integer.
  BN values are modelled as `Nat` where the source guarantees non-negativity
  and as `Int` at the two subtractions that can go negative.  BN division
  truncates toward zero and asserts on a zero divisor (`bnDiv`).
* `Numberu64.cloneFromBN` serialises the BN's magnitude to 8 little-endian
  bytes and asserts `Numberu64 too large` when the magnitude needs more than
  8 bytes; `u64Clone` / `u64CloneN` model this check.
* JavaScript exceptions are modelled with `Except CalcError`:
  `.divisionByZero` and `.numberu64TooLarge` are the two `AssertionError`s
  reachable from this code, `.withdrawalUnserviceable` is the SDK's
  `WithdrawalUnserviceableError`.
* Solana public keys are opaque to all of this logic; the three kinds of
  stake accounts a withdrawal can draw from are modelled by `StakeAcc`
  (the pool's reserve account, and each validator's main and transient
  stake accounts, derived from its vote account address).
-/

/-- 2^64, the first value rejected by the `Numberu64` conversion assertion. -/
def U64LIMIT : Nat := 2 ^ 64

/-- The failure modes reachable from the accounting engine: the two
bn.js / assert `AssertionError`s and `WithdrawalUnserviceableError`. -/
inductive CalcError where
  | divisionByZero
  | numberu64TooLarge
  | withdrawalUnserviceable
deriving DecidableEq

/-- Model of `Numberu64.cloneFromBN` on a possibly-negative BN: bn.js
serialises the magnitude, and `bnToNumberu64Buffer` asserts that it fits in
8 bytes. -/
def u64Clone (x : Int) : Except CalcError Nat :=
  if x.natAbs < U64LIMIT then .ok x.natAbs else .error .numberu64TooLarge

/-- Model of `Numberu64.cloneFromBN` on a non-negative BN. -/
def u64CloneN (x : Nat) : Except CalcError Nat :=
  if x < U64LIMIT then .ok x else .error .numberu64TooLarge

/-- Model of BN division on non-negative operands: floor division, asserting
on a zero divisor. -/
def bnDiv (a b : Nat) : Except CalcError Nat :=
  if b = 0 then .error .divisionByZero else .ok (a / b)

/-- A stake-pool fee fraction (schema.Fee): numerator and denominator are
on-chain u64 fields. -/
structure Fee where
  numerator : Nat
  denominator : Nat
deriving DecidableEq

/-- The stake accounts a withdrawal can draw from.  `reserve` is the pool's
reserve stake account; `main vote` and `transient vote` are the PDA-derived
validator stake account and transient stake account for the validator with
the given vote account address (here an opaque `Nat` identifier). -/
inductive StakeAcc where
  | reserve
  | main (vote : Nat)
  | transient (vote : Nat)
deriving DecidableEq

/-- The fields of a decoded `schema.StakePool` used by the accounting engine
and the sequence builder.  All numeric fields are on-chain u64 values. -/
structure StakePool where
  totalStakeLamports : Nat
  poolTokenSupply : Nat
  withdrawalFee : Fee
  solDepositFee : Fee
  stakeDepositFee : Fee
  solReferralFee : Nat
  stakeReferralFee : Nat
  reserveStake : StakeAcc
  lastUpdateEpoch : Nat
deriving DecidableEq

/-- The fields of a decoded `schema.ValidatorStakeInfo` used here. -/
structure ValidatorStakeInfo where
  voteAccountAddress : Nat
  activeStakeLamports : Nat
  transientStakeLamports : Nat
  lastUpdateEpoch : Nat
deriving DecidableEq

/-- Output of `calcWithdrawalReceipt`. -/
structure WithdrawalReceipt where
  dropletsUnstaked : Nat
  lamportsReceived : Nat
  dropletsFeePaid : Nat
deriving DecidableEq

/-- Output of `calcDeposit`. -/
structure DepositReceipt where
  lamportsStaked : Nat
  dropletsReceived : Nat
  dropletsFeePaid : Nat
  referralFeePaid : Nat
deriving DecidableEq

/-- A withdrawal receipt paired with the stake account it draws from. -/
structure ValidatorWithdrawalReceipt where
  stakeAccount : StakeAcc
  withdrawalReceipt : WithdrawalReceipt
deriving DecidableEq

/-- The withdrawal-fee subcomputation of `calcWithdrawalReceipt`:
`hasFee ? cloneFromBN(numerator * droplets / denominator) : new Numberu64(0)`. -/
def withdrawalFeeRes (dropletsToUnstake : Nat) (stakePool : StakePool) :
    Except CalcError Nat :=
  if stakePool.withdrawalFee.numerator ≠ 0 ∧ stakePool.withdrawalFee.denominator ≠ 0 then
    match bnDiv (stakePool.withdrawalFee.numerator * dropletsToUnstake)
        stakePool.withdrawalFee.denominator with
    | .error e => .error e
    | .ok q => u64CloneN q
  else .ok 0

/-- Embedding of `calcWithdrawalReceipt` (utils.ts lines 675-710): levy the
withdrawal fee, burn the rest, and convert burnt droplets to lamports with
ceiling division, returning 0 lamports when the numerator is below the pool
token supply or the supply is zero. -/
def calcWithdrawalReceiptE (dropletsToUnstake : Nat) (stakePool : StakePool) :
    Except CalcError WithdrawalReceipt :=
  match withdrawalFeeRes dropletsToUnstake stakePool with
  | .error e => .error e
  | .ok dropletsFeePaid =>
    let dropletsBurnt : Int := (dropletsToUnstake : Int) - (dropletsFeePaid : Int)
    let num : Int := dropletsBurnt * (stakePool.totalStakeLamports : Int)
    if num < (stakePool.poolTokenSupply : Int) ∨ stakePool.poolTokenSupply = 0 then
      match u64CloneN dropletsToUnstake with
      | .error e => .error e
      | .ok u =>
        .ok { dropletsUnstaked := u, lamportsReceived := 0, dropletsFeePaid := dropletsFeePaid }
    else
      match u64CloneN ((num.toNat + stakePool.poolTokenSupply - 1) / stakePool.poolTokenSupply) with
      | .error e => .error e
      | .ok lamportsReceived =>
        match u64CloneN dropletsToUnstake with
        | .error e => .error e
        | .ok u =>
          .ok { dropletsUnstaked := u, lamportsReceived := lamportsReceived,
                dropletsFeePaid := dropletsFeePaid }

/-- The withdrawal fee as the spec states it:
`withdrawalFee has non-zero num/denom ? floor(num * droplets / denom) : 0`. -/
def specWithdrawalFee (dropletsToUnstake : Nat) (stakePool : StakePool) : Nat :=
  if stakePool.withdrawalFee.numerator ≠ 0 ∧ stakePool.withdrawalFee.denominator ≠ 0 then
    stakePool.withdrawalFee.numerator * dropletsToUnstake / stakePool.withdrawalFee.denominator
  else 0

/-- `numerator = burnt * totalStaked` from the spec, as a signed integer
(BN subtraction can go negative when the fee fraction exceeds 1). -/
def specWithdrawalNum (dropletsToUnstake : Nat) (stakePool : StakePool) : Int :=
  ((dropletsToUnstake : Int) - (specWithdrawalFee dropletsToUnstake stakePool : Int)) *
    (stakePool.totalStakeLamports : Int)

/-- The lamports paid out as the spec states them: 0 when
`numerator < tokenSupply` or `tokenSupply == 0`, else
`ceilDiv(numerator, tokenSupply) = floor((numerator + tokenSupply - 1) / tokenSupply)`. -/
def specWithdrawalLamports (dropletsToUnstake : Nat) (stakePool : StakePool) : Nat :=
  if specWithdrawalNum dropletsToUnstake stakePool < (stakePool.poolTokenSupply : Int) ∨
      stakePool.poolTokenSupply = 0 then 0
  else ((specWithdrawalNum dropletsToUnstake stakePool).toNat + stakePool.poolTokenSupply - 1) /
    stakePool.poolTokenSupply

theorem withdrawalFeeRes_eq (d : Nat) (sp : StakePool) :
    withdrawalFeeRes d sp =
      if specWithdrawalFee d sp < U64LIMIT then .ok (specWithdrawalFee d sp)
      else .error .numberu64TooLarge := by
  unfold withdrawalFeeRes specWithdrawalFee
  by_cases h : sp.withdrawalFee.numerator ≠ 0 ∧ sp.withdrawalFee.denominator ≠ 0
  · rw [if_pos h, if_pos h]
    rw [bnDiv, if_neg h.2]
    rfl
  · rw [if_neg h, if_neg h, if_pos]
    norm_num [U64LIMIT]

/-- Complete characterisation of `calcWithdrawalReceipt`: it returns the
spec's receipt exactly when the fee, the input amount and the payout all fit
in a u64; otherwise the `Numberu64` conversion assertion fires. -/
theorem calcWithdrawalReceiptE_eq (d : Nat) (sp : StakePool) :
    calcWithdrawalReceiptE d sp =
      if specWithdrawalFee d sp < U64LIMIT ∧ d < U64LIMIT ∧
          specWithdrawalLamports d sp < U64LIMIT then
        .ok { dropletsUnstaked := d, lamportsReceived := specWithdrawalLamports d sp,
              dropletsFeePaid := specWithdrawalFee d sp }
      else .error .numberu64TooLarge := by
  have hnum : ((d : Int) - (specWithdrawalFee d sp : Int)) * (sp.totalStakeLamports : Int) =
      specWithdrawalNum d sp := rfl
  have hpos : (0 : Nat) < U64LIMIT := by norm_num [U64LIMIT]
  unfold calcWithdrawalReceiptE
  rw [withdrawalFeeRes_eq]
  by_cases hfee : specWithdrawalFee d sp < U64LIMIT
  · rw [if_pos hfee]
    simp only [hnum]
    unfold specWithdrawalLamports u64CloneN
    by_cases hz : specWithdrawalNum d sp < (sp.poolTokenSupply : Int) ∨ sp.poolTokenSupply = 0
    · rw [if_pos hz, if_pos hz]
      by_cases hd : d < U64LIMIT
      · rw [if_pos hd, if_pos ⟨hfee, hd, hpos⟩]
      · rw [if_neg hd]
        simp [hd]
    · rw [if_neg hz, if_neg hz]
      by_cases hl : ((specWithdrawalNum d sp).toNat + sp.poolTokenSupply - 1) /
          sp.poolTokenSupply < U64LIMIT
      · rw [if_pos hl]
        by_cases hd : d < U64LIMIT
        · rw [if_pos hd, if_pos ⟨hfee, hd, hl⟩]
        · rw [if_neg hd]
          simp [hd]
      · rw [if_neg hl]
        simp [hl]
  · rw [if_neg hfee]
    simp [hfee]

theorem calcWithdrawalReceiptE_ne_unserviceable (d : Nat) (sp : StakePool) :
    calcWithdrawalReceiptE d sp ≠ .error .withdrawalUnserviceable := by
  rw [calcWithdrawalReceiptE_eq]
  split <;> simp

/-- The deposit-fee subcomputation of `calcDeposit`:
`hasFee ? cloneFromBN(numerator * minted / denominator) : new Numberu64(0)`. -/
def depositFeeRes (dropletsMinted : Nat) (depositFee : Fee) : Except CalcError Nat :=
  if depositFee.numerator ≠ 0 ∧ depositFee.denominator ≠ 0 then
    match bnDiv (depositFee.numerator * dropletsMinted) depositFee.denominator with
    | .error e => .error e
    | .ok q => u64CloneN q
  else .ok 0

/-- Embedding of `calcDeposit` (utils.ts lines 591-620): price the deposit at
the pool's droplets-per-lamport rate, levy the deposit fee, carve the referral
fee out of it, and return the receipt. -/
def calcDepositE (lamportsToStake : Nat) (stakePool : StakePool) (depositFee : Fee)
    (referralFee : Nat) : Except CalcError DepositReceipt :=
  match bnDiv (lamportsToStake * stakePool.poolTokenSupply) stakePool.totalStakeLamports with
  | .error e => .error e
  | .ok dropletsMinted =>
    match depositFeeRes dropletsMinted depositFee with
    | .error e => .error e
    | .ok dropletsFeePaid =>
      match u64CloneN (dropletsFeePaid * referralFee / 100) with
      | .error e => .error e
      | .ok referralFeePaid =>
        match u64Clone ((dropletsMinted : Int) - (dropletsFeePaid : Int)) with
        | .error e => .error e
        | .ok dropletsReceived =>
          .ok { lamportsStaked := lamportsToStake, dropletsReceived := dropletsReceived,
                dropletsFeePaid := dropletsFeePaid, referralFeePaid := referralFeePaid }

/-- Embedding of `calcSolDeposit`: `calcDeposit` applied to the pool's SOL
deposit fee and SOL referral fee. -/
def calcSolDepositE (lamportsToStake : Nat) (stakePool : StakePool) :
    Except CalcError DepositReceipt :=
  calcDepositE lamportsToStake stakePool stakePool.solDepositFee stakePool.solReferralFee

/-- Embedding of `calcStakeDeposit`: `calcDeposit` applied to the pool's stake
deposit fee and stake referral fee. -/
def calcStakeDepositE (lamportsToStake : Nat) (stakePool : StakePool) :
    Except CalcError DepositReceipt :=
  calcDepositE lamportsToStake stakePool stakePool.stakeDepositFee stakePool.stakeReferralFee

/-- The droplets minted by a deposit as the spec states them:
`floor(lamportsIn * tokenSupply / totalStaked)`. -/
def specDepositMinted (lamportsToStake : Nat) (stakePool : StakePool) : Nat :=
  lamportsToStake * stakePool.poolTokenSupply / stakePool.totalStakeLamports

/-- The deposit fee as the spec states it. -/
def specDepositFee (dropletsMinted : Nat) (depositFee : Fee) : Nat :=
  if depositFee.numerator ≠ 0 ∧ depositFee.denominator ≠ 0 then
    depositFee.numerator * dropletsMinted / depositFee.denominator
  else 0

theorem depositFeeRes_eq (m : Nat) (fee : Fee) :
    depositFeeRes m fee =
      if specDepositFee m fee < U64LIMIT then .ok (specDepositFee m fee)
      else .error .numberu64TooLarge := by
  unfold depositFeeRes specDepositFee
  by_cases h : fee.numerator ≠ 0 ∧ fee.denominator ≠ 0
  · rw [if_pos h, if_pos h]
    rw [bnDiv, if_neg h.2]
    rfl
  · rw [if_neg h, if_neg h, if_pos]
    norm_num [U64LIMIT]

/-- Embedding of `estDropletsUnstakedByWithdrawal` (utils.ts lines 719-738):
the approximate inverse of `calcWithdrawalReceipt`, inflating the fee-free
estimate by `denominator / (denominator - numerator)` when a fee applies.
`Int.tdiv` is bn.js division (truncation toward zero): `base` can be negative
or zero when the stored fee fraction exceeds or equals 1. -/
def estDropletsUnstakedByWithdrawalE (lamportsReceived : Nat) (stakePool : StakePool) :
    Except CalcError Nat :=
  match bnDiv (lamportsReceived * stakePool.poolTokenSupply) stakePool.totalStakeLamports with
  | .error e => .error e
  | .ok estDropletsBurnt =>
    if stakePool.withdrawalFee.numerator ≠ 0 ∧ stakePool.withdrawalFee.denominator ≠ 0 then
      if ((stakePool.withdrawalFee.denominator : Int) -
          (stakePool.withdrawalFee.numerator : Int)) = 0 then .error .divisionByZero
      else
        u64Clone (Int.tdiv ((estDropletsBurnt : Int) *
          (stakePool.withdrawalFee.denominator : Int))
          ((stakePool.withdrawalFee.denominator : Int) -
            (stakePool.withdrawalFee.numerator : Int)))
    else u64CloneN estDropletsBurnt

/-- Embedding of `tryServiceWithdrawal` (utils.ts lines 125-147): cap the
requested droplets by the estimated serviceable amount, compute the
authoritative receipt, and abort with `WithdrawalUnserviceableError` if the
receipt needs more lamports than are available. -/
def tryServiceWithdrawalE (withdrawalAmountDroplets lamportsAvailable : Nat)
    (stakePool : StakePool) : Except CalcError WithdrawalReceipt :=
  match estDropletsUnstakedByWithdrawalE lamportsAvailable stakePool with
  | .error e => .error e
  | .ok dropletsServiceable =>
    match calcWithdrawalReceiptE
        (if withdrawalAmountDroplets < dropletsServiceable then withdrawalAmountDroplets
         else dropletsServiceable) stakePool with
    | .error e => .error e
    | .ok withdrawalReceipt =>
      if lamportsAvailable < withdrawalReceipt.lamportsReceived then
        .error .withdrawalUnserviceable
      else .ok withdrawalReceipt

/-- `MIN_ACTIVE_STAKE_LAMPORTS` (utils.ts line 251). -/
def MIN_ACTIVE_STAKE_LAMPORTS : Nat := 1000000

/-- `STAKE_ACCOUNT_RENT_EXEMPT_LAMPORTS` (utils.ts line 255). -/
def STAKE_ACCOUNT_RENT_EXEMPT_LAMPORTS : Nat := 2282880

/-- Lamports available to withdraw from one validator plus the stake account
to draw them from. -/
structure ValidatorStakeAvailableToWithdraw where
  lamports : Nat
  stakeAccount : StakeAcc
deriving DecidableEq

/-- Embedding of `stakeAvailableToWithdraw` (utils.ts lines 269-307): draw
from the active (main) stake account whenever it has a non-zero balance, else
from the transient stake account after reserving rent exemption plus the
minimum active stake (`satSub`, which is exactly `Nat` subtraction).  The PDA
derivations of the account addresses are abstracted by the `StakeAcc`
constructors. -/
def stakeAvailableToWithdraw (validator : ValidatorStakeInfo) :
    ValidatorStakeAvailableToWithdraw :=
  if validator.activeStakeLamports ≠ 0 then
    { lamports := validator.activeStakeLamports,
      stakeAccount := .main validator.voteAccountAddress }
  else
    { lamports := validator.transientStakeLamports -
        (STAKE_ACCOUNT_RENT_EXEMPT_LAMPORTS + MIN_ACTIVE_STAKE_LAMPORTS),
      stakeAccount := .transient validator.voteAccountAddress }

/-- Embedding of `validatorTotalStake`: `activeStakeLamports +
transientStakeLamports`.  (The source converts the sum with `cloneFromBN`,
which asserts if the sum of the two u64 balances needs a 65th bit; theorems
about the allocator therefore carry the corresponding bound.) -/
def validatorTotalStake (validator : ValidatorStakeInfo) : Nat :=
  validator.activeStakeLamports + validator.transientStakeLamports

/-- The comparator of `validatorsByTotalStakeAsc` as a relation. -/
def totalStakeLE (a b : ValidatorStakeInfo) : Prop :=
  validatorTotalStake a ≤ validatorTotalStake b

instance : DecidableRel totalStakeLE :=
  fun a b => inferInstanceAs (Decidable (validatorTotalStake a ≤ validatorTotalStake b))

/-- Embedding of `validatorsByTotalStakeAsc` (utils.ts lines 237-247):
JavaScript `Array.prototype.sort` is a stable sort, and the comparator is the
total order on `validatorTotalStake`; a stable insertion sort by the same key
produces the identical array. -/
def validatorsByTotalStakeAsc (validatorStakeInfos : List ValidatorStakeInfo) :
    List ValidatorStakeInfo :=
  validatorStakeInfos.insertionSort totalStakeLE

/-- The `forEach` loop of `calcWithdrawals` (utils.ts lines 195-232) over the
already-sorted list of per-validator available stakes, followed by the final
remaining-droplets check: skip validators once the request is fully serviced,
keep receipts with non-zero droplets and lamports while decrementing the
remaining request (`satSub` is exact here since the serviced amount never
exceeds the remainder), and fail with `WithdrawalUnserviceableError` if any
request remains after the last validator. -/
def goWithdraw (stakePool : StakePool) :
    List ValidatorStakeAvailableToWithdraw → Nat →
    Except CalcError (List ValidatorWithdrawalReceipt)
  | [], dropletsRemaining =>
    if dropletsRemaining ≠ 0 then .error .withdrawalUnserviceable else .ok []
  | avail :: rest, dropletsRemaining =>
    if dropletsRemaining = 0 then goWithdraw stakePool rest dropletsRemaining
    else
      match tryServiceWithdrawalE dropletsRemaining avail.lamports stakePool with
      | .error e => .error e
      | .ok withdrawalReceipt =>
        if withdrawalReceipt.dropletsUnstaked ≠ 0 ∧ withdrawalReceipt.lamportsReceived ≠ 0 then
          match goWithdraw stakePool rest
              (dropletsRemaining - withdrawalReceipt.dropletsUnstaked) with
          | .error e => .error e
          | .ok res =>
            .ok ({ stakeAccount := avail.stakeAccount,
                   withdrawalReceipt := withdrawalReceipt } :: res)
        else goWithdraw stakePool rest dropletsRemaining

/-- Embedding of `calcWithdrawals` (utils.ts lines 164-235): an empty
validator list is serviced entirely from the pool's reserve account with a
single receipt; otherwise validators are sorted ascending by total stake and
drained lightest-first by the loop above. -/
def calcWithdrawalsE (withdrawalAmountDroplets : Nat) (stakePool : StakePool)
    (validators : List ValidatorStakeInfo) :
    Except CalcError (List ValidatorWithdrawalReceipt) :=
  if validators.length < 1 then
    match calcWithdrawalReceiptE withdrawalAmountDroplets stakePool with
    | .error e => .error e
    | .ok withdrawalReceipt =>
      .ok [{ stakeAccount := stakePool.reserveStake, withdrawalReceipt := withdrawalReceipt }]
  else
    goWithdraw stakePool
      ((validatorsByTotalStakeAsc validators).map stakeAvailableToWithdraw)
      withdrawalAmountDroplets

theorem bnDiv_error {a b : Nat} {e : CalcError} (h : bnDiv a b = .error e) :
    e = .divisionByZero := by
  unfold bnDiv at h
  split at h <;> simp_all

theorem u64CloneN_error {x : Nat} {e : CalcError} (h : u64CloneN x = .error e) :
    e = .numberu64TooLarge := by
  unfold u64CloneN at h
  split at h <;> simp_all

theorem u64Clone_error {x : Int} {e : CalcError} (h : u64Clone x = .error e) :
    e = .numberu64TooLarge := by
  unfold u64Clone at h
  split at h <;> simp_all

/-- The inverse estimator can fail only with a bn.js assertion, never with
`WithdrawalUnserviceableError`. -/
theorem estDropletsUnstakedByWithdrawalE_ne_unserviceable (lam : Nat) (sp : StakePool) :
    estDropletsUnstakedByWithdrawalE lam sp ≠ .error .withdrawalUnserviceable := by
  unfold estDropletsUnstakedByWithdrawalE
  intro hc
  split at hc
  next e heq =>
    cases hc
    exact CalcError.noConfusion (bnDiv_error heq)
  next q heq =>
    split at hc
    · split at hc
      · simp at hc
      · exact CalcError.noConfusion (u64Clone_error hc)
    · exact CalcError.noConfusion (u64CloneN_error hc)

/-- `calcWithdrawalReceipt` can fail only with the `Numberu64` conversion
assertion. -/
theorem calcWithdrawalReceiptE_error {d : Nat} {sp : StakePool} {e : CalcError}
    (h : calcWithdrawalReceiptE d sp = .error e) : e = .numberu64TooLarge := by
  rw [calcWithdrawalReceiptE_eq] at h
  split at h <;> simp_all

/-- Successful `tryServiceWithdrawal`, unfolded: the estimate succeeded, the
authoritative receipt for the capped amount succeeded, and the receipt does
not overdraw the available lamports. -/
theorem tryServiceWithdrawalE_ok_iff {rem lam : Nat} {sp : StakePool} {r : WithdrawalReceipt} :
    tryServiceWithdrawalE rem lam sp = .ok r ↔
      ∃ s, estDropletsUnstakedByWithdrawalE lam sp = .ok s ∧
        calcWithdrawalReceiptE (min rem s) sp = .ok r ∧
        ¬ lam < r.lamportsReceived := by
  unfold tryServiceWithdrawalE
  split
  next e heq =>
    simp only [heq]
    constructor
    · intro hc; exact absurd hc (by simp)
    · rintro ⟨s', hs', _, _⟩
      exact absurd hs' (by simp)
  next s heq =>
    have hmin : (if rem < s then rem else s) = min rem s := by
      rw [Nat.min_def]; split_ifs <;> omega
    rw [hmin]
    split
    next e2 heq2 =>
      simp only [heq]
      constructor
      · intro hc; exact absurd hc (by simp)
      · rintro ⟨s', hs', hc', _⟩
        cases hs'
        exact absurd hc' (by simp [heq2])
    next r' heq2 =>
      by_cases hover : lam < r'.lamportsReceived
      · rw [if_pos hover]
        simp only [heq]
        constructor
        · intro hc; exact absurd hc (by simp)
        · rintro ⟨s', hs', hc', hov'⟩
          cases hs'
          rw [heq2] at hc'
          cases hc'
          exact absurd hover hov'
      · rw [if_neg hover]
        simp only [heq]
        constructor
        · intro hc
          cases hc
          exact ⟨s, rfl, heq2, hover⟩
        · rintro ⟨s', hs', hc', hov'⟩
          cases hs'
          rw [heq2] at hc'
          cases hc'
          rfl

/-- Condition (a) of the unserviceable-withdrawal analysis: for the current
remaining request and available lamports, the estimate and the authoritative
receipt for the capped amount both compute, and the receipt's
`lamportsReceived` strictly exceeds the available lamports (a rounding
overdraw). -/
def overdrawStep (stakePool : StakePool) (dropletsRemaining lamportsAvailable : Nat) : Prop :=
  ∃ s r, estDropletsUnstakedByWithdrawalE lamportsAvailable stakePool = .ok s ∧
    calcWithdrawalReceiptE (min dropletsRemaining s) stakePool = .ok r ∧
    lamportsAvailable < r.lamportsReceived

/-- `tryServiceWithdrawal` throws `WithdrawalUnserviceableError` exactly on a
rounding overdraw. -/
theorem tryServiceWithdrawalE_unserviceable_iff {rem lam : Nat} {sp : StakePool} :
    tryServiceWithdrawalE rem lam sp = .error .withdrawalUnserviceable ↔
      overdrawStep sp rem lam := by
  unfold tryServiceWithdrawalE overdrawStep
  split
  next e heq =>
    have hne := estDropletsUnstakedByWithdrawalE_ne_unserviceable lam sp
    constructor
    · intro hc
      cases hc
      exact absurd heq hne
    · rintro ⟨s', r', hs', _, _⟩
      rw [heq] at hs'
      exact absurd hs' (by simp)
  next s heq =>
    have hmin : (if rem < s then rem else s) = min rem s := by
      rw [Nat.min_def]; split_ifs <;> omega
    rw [hmin]
    split
    next e2 heq2 =>
      have he2 := calcWithdrawalReceiptE_error heq2
      subst he2
      constructor
      · intro hc; exact absurd hc (by simp)
      · rintro ⟨s', r', hs', hc', _⟩
        rw [heq] at hs'
        cases hs'
        rw [heq2] at hc'
        exact absurd hc' (by simp)
    next r' heq2 =>
      by_cases hover : lam < r'.lamportsReceived
      · rw [if_pos hover]
        constructor
        · intro _
          exact ⟨s, r', heq, heq2, hover⟩
        · intro _; rfl
      · rw [if_neg hover]
        constructor
        · intro hc; exact absurd hc (by simp)
        · rintro ⟨s', r'', hs', hc', hov'⟩
          rw [heq] at hs'
          cases hs'
          rw [heq2] at hc'
          cases hc'
          exact absurd hov' hover

/-- A successful `tryServiceWithdrawal` never unstakes more droplets than the
remaining request: the serviced amount is capped at the remainder. -/
theorem tryServiceWithdrawalE_ok_le {rem lam : Nat} {sp : StakePool} {r : WithdrawalReceipt}
    (h : tryServiceWithdrawalE rem lam sp = .ok r) : r.dropletsUnstaked ≤ rem := by
  obtain ⟨s, _, hc, _⟩ := tryServiceWithdrawalE_ok_iff.mp h
  rw [calcWithdrawalReceiptE_eq] at hc
  split at hc
  · cases hc
    exact Nat.min_le_left rem s
  · exact absurd hc (by simp)

/-- Loop invariant behind the allocator's conservation law: a successful run
of the `forEach` loop services the remaining request exactly. -/
theorem goWithdraw_ok_sum (sp : StakePool) :
    ∀ (l : List ValidatorStakeAvailableToWithdraw) (rem : Nat)
      (res : List ValidatorWithdrawalReceipt), goWithdraw sp l rem = .ok res →
      (res.map fun x => x.withdrawalReceipt.dropletsUnstaked).sum = rem := by
  intro l
  induction l with
  | nil =>
    intro rem res h
    unfold goWithdraw at h
    split at h
    · exact absurd h (by simp)
    next hrem =>
      cases h
      simp
      omega
  | cons a rest ih =>
    intro rem res h
    unfold goWithdraw at h
    split at h
    next hrem =>
      exact ih rem res h
    next hrem =>
      split at h
      next e heq => exact absurd h (by simp)
      next r heq =>
        split at h
        next hguard =>
          split at h
          next e2 heq2 => exact absurd h (by simp)
          next res' heq2 =>
            cases h
            have hsum := ih _ _ heq2
            have hle := tryServiceWithdrawalE_ok_le heq
            simp only [List.map_cons, List.sum_cons]
            omega
        next hguard =>
          exact ih rem res h

/-- Every receipt kept by the loop has non-zero droplets and non-zero
lamports (the push guard). -/
theorem goWithdraw_ok_mem (sp : StakePool) :
    ∀ (l : List ValidatorStakeAvailableToWithdraw) (rem : Nat)
      (res : List ValidatorWithdrawalReceipt), goWithdraw sp l rem = .ok res →
      ∀ x ∈ res, x.withdrawalReceipt.dropletsUnstaked ≠ 0 ∧
        x.withdrawalReceipt.lamportsReceived ≠ 0 := by
  intro l
  induction l with
  | nil =>
    intro rem res h x hx
    unfold goWithdraw at h
    split at h
    · exact absurd h (by simp)
    · cases h
      exact absurd hx (by simp)
  | cons a rest ih =>
    intro rem res h x hx
    unfold goWithdraw at h
    split at h
    next hrem =>
      exact ih rem res h x hx
    next hrem =>
      split at h
      next e heq => exact absurd h (by simp)
      next r heq =>
        split at h
        next hguard =>
          split at h
          next e2 heq2 => exact absurd h (by simp)
          next res' heq2 =>
            cases h
            rcases List.mem_cons.mp hx with hx | hx
            · subst hx
              exact hguard
            · exact ih _ _ heq2 x hx
        next hguard =>
          exact ih rem res h x hx

/-- The receipts kept by the loop draw from stake accounts in the order the
loop visited them: the receipt list projects to a sublist of the visited
account list. -/
theorem goWithdraw_ok_sublist (sp : StakePool) :
    ∀ (l : List ValidatorStakeAvailableToWithdraw) (rem : Nat)
      (res : List ValidatorWithdrawalReceipt), goWithdraw sp l rem = .ok res →
      List.Sublist (res.map fun x => x.stakeAccount) (l.map fun a => a.stakeAccount) := by
  intro l
  induction l with
  | nil =>
    intro rem res h
    unfold goWithdraw at h
    split at h
    · exact absurd h (by simp)
    · cases h
      simp
  | cons a rest ih =>
    intro rem res h
    unfold goWithdraw at h
    split at h
    next hrem =>
      exact List.Sublist.cons _ (ih rem res h)
    next hrem =>
      split at h
      next e heq => exact absurd h (by simp)
      next r heq =>
        split at h
        next hguard =>
          split at h
          next e2 heq2 => exact absurd h (by simp)
          next res' heq2 =>
            cases h
            simp only [List.map_cons]
            exact List.Sublist.cons₂ a.stakeAccount (ih _ _ heq2)
        next hguard =>
          exact List.Sublist.cons _ (ih rem res h)

/-- The unserviceable condition of the `forEach` loop, stated from the spec's
description: either the current validator triggers a rounding overdraw
(condition (a)), or the loop steps on — with the remainder reduced exactly
when a receipt is kept — and a later validator or the final
remaining-droplets check (condition (b), the base case) fails.  A bn.js
assertion aborts the run with a different error, so it makes the condition
`False`. -/
def unservCondGo (stakePool : StakePool) :
    List ValidatorStakeAvailableToWithdraw → Nat → Prop
  | [], dropletsRemaining => dropletsRemaining ≠ 0
  | avail :: rest, dropletsRemaining =>
    if dropletsRemaining = 0 then unservCondGo stakePool rest dropletsRemaining
    else
      overdrawStep stakePool dropletsRemaining avail.lamports ∨
      ∃ r, tryServiceWithdrawalE dropletsRemaining avail.lamports stakePool = .ok r ∧
        unservCondGo stakePool rest
          (if r.dropletsUnstaked ≠ 0 ∧ r.lamportsReceived ≠ 0 then
            dropletsRemaining - r.dropletsUnstaked else dropletsRemaining)

/-- The loop ends in `WithdrawalUnserviceableError` exactly when the
unserviceable condition holds. -/
theorem goWithdraw_unserviceable_iff (sp : StakePool) :
    ∀ (l : List ValidatorStakeAvailableToWithdraw) (rem : Nat),
      (goWithdraw sp l rem = .error .withdrawalUnserviceable ↔ unservCondGo sp l rem) := by
  intro l
  induction l with
  | nil =>
    intro rem
    unfold goWithdraw unservCondGo
    split
    next hrem => simp [hrem]
    next hrem => simp [hrem]
  | cons a rest ih =>
    intro rem
    unfold goWithdraw unservCondGo
    split
    next hrem =>
      exact ih rem
    next hrem =>
      cases heq : tryServiceWithdrawalE rem a.lamports sp with
      | error e =>
        cases e with
        | withdrawalUnserviceable =>
          simp only [heq]
          constructor
          · intro _
            exact Or.inl (tryServiceWithdrawalE_unserviceable_iff.mp heq)
          · intro _; trivial
        | divisionByZero =>
          simp only [heq]
          constructor
          · intro hc; exact absurd hc (by simp)
          · rintro (hover | ⟨r, hr, _⟩)
            · have := tryServiceWithdrawalE_unserviceable_iff.mpr hover
              rw [heq] at this
              exact absurd this (by simp)
            · exact absurd hr (by simp)
        | numberu64TooLarge =>
          simp only [heq]
          constructor
          · intro hc; exact absurd hc (by simp)
          · rintro (hover | ⟨r, hr, _⟩)
            · have := tryServiceWithdrawalE_unserviceable_iff.mpr hover
              rw [heq] at this
              exact absurd this (by simp)
            · exact absurd hr (by simp)
      | ok r =>
        simp only [heq]
        have hnover : ¬ overdrawStep sp rem a.lamports := by
          intro hover
          have := tryServiceWithdrawalE_unserviceable_iff.mpr hover
          rw [heq] at this
          exact absurd this (by simp)
        by_cases hguard : r.dropletsUnstaked ≠ 0 ∧ r.lamportsReceived ≠ 0
        · rw [if_pos hguard]
          constructor
          · intro hc
            split at hc
            next e2 heq2 =>
              cases hc
              refine Or.inr ⟨r, rfl, ?_⟩
              rw [if_pos hguard]
              exact (ih _).mp heq2
            next res' heq2 => exact absurd hc (by simp)
          · rintro (hover | ⟨r', hr', hcond⟩)
            · exact absurd hover hnover
            · cases hr'
              rw [if_pos hguard] at hcond
              have := (ih _).mpr hcond
              rw [this]
        · rw [if_neg hguard]
          constructor
          · intro hc
            refine Or.inr ⟨r, rfl, ?_⟩
            rw [if_neg hguard]
            exact (ih _).mp hc
          · rintro (hover | ⟨r', hr', hcond⟩)
            · exact absurd hover hnover
            · cases hr'
              rw [if_neg hguard] at hcond
              exact (ih _).mpr hcond

/-- The transactions the deposit/withdraw sequence builders emit, abstracted
from their instruction payloads: one `UpdateValidatorListBalance` transaction
per validator chunk (recording the chunk's start index and vote accounts),
the single `UpdateStakePoolBalance` + `CleanupRemovedValidatorEntries`
transaction, and the user's action transaction (deposit or withdrawal). -/
inductive SeqTx where
  | updateValidatorListBalance (startIndex : Nat) (voteChunk : List Nat)
  | updateStakePoolBalanceAndCleanup
  | action
deriving DecidableEq

/-- An inner `TransactionWithSigners[]` array of a `TransactionSequence`: the
executor confirms all of its transactions before moving to the next batch. -/
abbrev TxBatch := List SeqTx

/-- The do/while loop of `updateValidatorListBalanceTransactions`: starting
from `start`, skip validators already updated for the current epoch, then
emit one transaction covering the next `MAX_VALIDATORS_TO_UPDATE = 5`
contiguous list slots, and continue while the end index is in range.  The
`fuel` argument only makes the recursion structural; every iteration advances
the start index by at least 5, so `validators.length + 1` fuel is never
exhausted. -/
def updateChunksGo (validators : List ValidatorStakeInfo) (currentEpoch : Nat) :
    Nat → Nat → List SeqTx
  | 0, _ => []
  | fuel + 1, start =>
    match (validators.drop start).findIdx?
        (fun validator => validator.lastUpdateEpoch < currentEpoch) with
    | none => []
    | some i =>
      .updateValidatorListBalance (start + i)
          (((validators.map fun validator => validator.voteAccountAddress).drop
            (start + i)).take 5) ::
        (if start + i + 5 < validators.length then
          updateChunksGo validators currentEpoch fuel (start + i + 5)
        else [])

/-- Embedding of `updateValidatorListBalanceTransactions`: the list of
validator-balance refresh transactions for one full update. -/
def updateValidatorListBalanceTxs (validators : List ValidatorStakeInfo)
    (currentEpoch : Nat) : List SeqTx :=
  updateChunksGo validators currentEpoch (validators.length + 1) 0

/-- Embedding of `updateTransactionSequence`: the validator-balance refresh
transactions as one batch (dropped when empty, exactly the source's
`filter(arr => arr.length > 0)`), followed by the pool-aggregate refresh and
removed-validator cleanup batch. -/
def updateTransactionSequence (validators : List ValidatorStakeInfo)
    (currentEpoch : Nat) : List TxBatch :=
  ([updateValidatorListBalanceTxs validators currentEpoch,
    [SeqTx.updateStakePoolBalanceAndCleanup]]).filter fun arr => arr.length > 0

/-- Embedding of the sequence assembly shared by `depositSolTransactions`,
`depositStakeTransactions` and `withdrawStakeTransactions`: the action
batch(es) are built first, and the refresh sequence is `unshift`ed in front
exactly when the cached pool snapshot is stale
(`stakePool.lastUpdateEpoch < currentEpoch`). -/
def buildActionSequence (stakePool : StakePool) (currentEpoch : Nat)
    (validators : List ValidatorStakeInfo) (actionBatches : List TxBatch) : List TxBatch :=
  if stakePool.lastUpdateEpoch < currentEpoch then
    updateTransactionSequence validators currentEpoch ++ actionBatches
  else actionBatches

/-- One submit or confirmation event of the executor, tagged with the index
of the batch it belongs to. -/
inductive ExecEvent where
  | submit (batchIdx : Nat) (tx : SeqTx)
  | confirm (batchIdx : Nat) (tx : SeqTx)
deriving DecidableEq

/-- Event trace of `signAndSendTransactionSequence` from batch index `i`
onward: within a batch all transactions are submitted (concurrently, via
`Promise.all`), then the batch's confirmations are all awaited, and only then
does the `for … of` loop move to the next batch — the await is a barrier, so
every confirmation of batch `i` precedes every submission of batch `i+1`. -/
def execTraceGo : Nat → List TxBatch → List ExecEvent
  | _, [] => []
  | i, batch :: rest =>
    batch.map (ExecEvent.submit i) ++ batch.map (ExecEvent.confirm i) ++
      execTraceGo (i + 1) rest

/-- The full executor trace of a transaction sequence. -/
def signAndSendTrace (seq : List TxBatch) : List ExecEvent :=
  execTraceGo 0 seq

theorem execTraceGo_append (i : Nat) (xs ys : List TxBatch) :
    execTraceGo i (xs ++ ys) = execTraceGo i xs ++ execTraceGo (i + xs.length) ys := by
  induction xs generalizing i with
  | nil => simp [execTraceGo]
  | cons b rest ih =>
    rw [List.cons_append]
    have h1 : execTraceGo i (b :: (rest ++ ys)) =
        b.map (ExecEvent.submit i) ++ b.map (ExecEvent.confirm i) ++
          execTraceGo (i + 1) (rest ++ ys) := rfl
    have h2 : execTraceGo i (b :: rest) =
        b.map (ExecEvent.submit i) ++ b.map (ExecEvent.confirm i) ++
          execTraceGo (i + 1) rest := rfl
    rw [h1, h2, ih (i + 1), List.length_cons, List.append_assoc, List.append_assoc,
      List.append_assoc]
    have hlen : i + 1 + rest.length = i + (rest.length + 1) := by omega
    rw [hlen]

/-- In an all-stale validator list, the first non-updated validator is at the
front of every suffix, so every chunk is a full stride of 5: the loop emits
exactly `ceil(remaining / 5)` transactions. -/
theorem updateChunksGo_all_stale (validators : List ValidatorStakeInfo) (currentEpoch : Nat)
    (hstale : ∀ v ∈ validators, v.lastUpdateEpoch < currentEpoch) :
    ∀ (fuel start : Nat), validators.length ≤ start + 5 * fuel →
      (updateChunksGo validators currentEpoch fuel start).length =
        (validators.length - start + 4) / 5 := by
  intro fuel
  induction fuel with
  | zero =>
    intro start hle
    simp only [Nat.mul_zero, Nat.add_zero] at hle
    unfold updateChunksGo
    have : validators.length - start = 0 := by omega
    rw [this]
    rfl
  | succ fuel ih =>
    intro start hle
    unfold updateChunksGo
    by_cases hs : validators.length ≤ start
    · rw [List.drop_eq_nil_of_le hs]
      simp only [List.findIdx?_nil]
      have : validators.length - start = 0 := by omega
      rw [this]
      rfl
    · push_neg at hs
      obtain ⟨v, hv⟩ : ∃ v, (validators.drop start).head? = some v := by
        have : validators.drop start ≠ [] := by
          intro hnil
          have := List.drop_eq_nil_iff.mp hnil
          omega
        exact ⟨(validators.drop start).head this, List.head?_eq_head this⟩
      have hfind : (validators.drop start).findIdx?
          (fun validator => validator.lastUpdateEpoch < currentEpoch) = some 0 := by
        cases hdrop : validators.drop start with
        | nil => rw [hdrop] at hv; simp at hv
        | cons w ws =>
          have hw : w ∈ validators := by
            have : w ∈ validators.drop start := by rw [hdrop]; exact List.mem_cons_self w ws
            exact List.mem_of_mem_drop this
          rw [List.findIdx?_cons]
          rw [if_pos]
          exact decide_eq_true (hstale w hw)
      rw [hfind]
      simp only [Nat.add_zero, List.length_cons]
      by_cases hcont : start + 5 < validators.length
      · rw [if_pos hcont]
        rw [ih (start + 5) (by omega)]
        have h5 : validators.length - start = (validators.length - (start + 5)) + 5 := by omega
        rw [h5]
        have := Nat.add_div_right (validators.length - (start + 5) + 4) (by omega : 0 < 5)
        have harr : validators.length - (start + 5) + 5 + 4 =
            validators.length - (start + 5) + 4 + 5 := by omega
        rw [harr, this]
      · rw [if_neg hcont]
        have h1 : 1 ≤ validators.length - start := by omega
        have h2 : validators.length - start ≤ 5 := by omega
        have : (validators.length - start + 4) / 5 = 1 := by
          apply Nat.div_eq_of_lt_le
          · omega
          · omega
        rw [this]
        rfl

/-- Complete characterisation of `calcDeposit` on a pool with non-zero total
stake: it returns the spec's receipt exactly when the fee, the referral fee
and the received droplets all fit in a u64; otherwise the `Numberu64`
conversion assertion fires.  (`natAbs` reflects that bn.js serialises the
magnitude of `minted - feePaid`, which is negative only for fee fractions
above 1.) -/
theorem calcDepositE_eq (l : Nat) (sp : StakePool) (fee : Fee) (ref : Nat)
    (hT : sp.totalStakeLamports ≠ 0) :
    calcDepositE l sp fee ref =
      if specDepositFee (specDepositMinted l sp) fee < U64LIMIT ∧
          specDepositFee (specDepositMinted l sp) fee * ref / 100 < U64LIMIT ∧
          ((specDepositMinted l sp : Int) -
            (specDepositFee (specDepositMinted l sp) fee : Int)).natAbs < U64LIMIT then
        .ok { lamportsStaked := l,
              dropletsReceived := ((specDepositMinted l sp : Int) -
                (specDepositFee (specDepositMinted l sp) fee : Int)).natAbs,
              dropletsFeePaid := specDepositFee (specDepositMinted l sp) fee,
              referralFeePaid := specDepositFee (specDepositMinted l sp) fee * ref / 100 }
      else .error .numberu64TooLarge := by
  have hm : l * sp.poolTokenSupply / sp.totalStakeLamports = specDepositMinted l sp := rfl
  unfold calcDepositE
  rw [bnDiv, if_neg hT, hm]
  simp only [depositFeeRes_eq]
  by_cases hf : specDepositFee (specDepositMinted l sp) fee < U64LIMIT
  · rw [if_pos hf]
    dsimp only
    unfold u64CloneN u64Clone
    by_cases hr2 : specDepositFee (specDepositMinted l sp) fee * ref / 100 < U64LIMIT
    · rw [if_pos hr2]
      by_cases hrecv : ((specDepositMinted l sp : Int) -
          (specDepositFee (specDepositMinted l sp) fee : Int)).natAbs < U64LIMIT
      · rw [if_pos hrecv, if_pos ⟨hf, hr2, hrecv⟩]
      · rw [if_neg hrecv]
        simp [hrecv]
    · rw [if_neg hr2]
      simp [hr2]
  · rw [if_neg hf]
    simp [hf]

/-- A fee fraction strictly below 1 never charges more than the base amount:
`floor(num * m / denom) ≤ m`. -/
theorem specDepositFee_le (m : Nat) (fee : Fee) (hfrac : fee.numerator < fee.denominator) :
    specDepositFee m fee ≤ m := by
  unfold specDepositFee
  split
  · calc fee.numerator * m / fee.denominator
        ≤ fee.denominator * m / fee.denominator :=
          Nat.div_le_div_right (Nat.mul_le_mul_right m hfrac.le)
      _ = m := Nat.mul_div_cancel_left m (by omega)
  · exact Nat.zero_le m

theorem specWithdrawalFee_le (d : Nat) (sp : StakePool)
    (hfrac : sp.withdrawalFee.numerator < sp.withdrawalFee.denominator) :
    specWithdrawalFee d sp ≤ d := by
  unfold specWithdrawalFee
  split
  · calc sp.withdrawalFee.numerator * d / sp.withdrawalFee.denominator
        ≤ sp.withdrawalFee.denominator * d / sp.withdrawalFee.denominator :=
          Nat.div_le_div_right (Nat.mul_le_mul_right d hfrac.le)
      _ = d := Nat.mul_div_cancel_left d (by omega)
  · exact Nat.zero_le d

/-- Fee fraction with both parts zero, the default in the example pools. -/
def zeroFee : Fee := { numerator := 0, denominator := 0 }

/-- A 1000-lamport / 1000-droplet pool with no fees: exchange rate 1:1. -/
def poolOneToOne : StakePool :=
  { totalStakeLamports := 1000, poolTokenSupply := 1000, withdrawalFee := zeroFee,
    solDepositFee := zeroFee, stakeDepositFee := zeroFee, solReferralFee := 0,
    stakeReferralFee := 0, reserveStake := .reserve, lastUpdateEpoch := 0 }

/-- 3 lamports backing 2 droplets, 1/2 withdrawal fee: the ceiling division
pays 2 lamports for 1 droplet. -/
def poolSmall : StakePool := { poolOneToOne with
  totalStakeLamports := 3
  poolTokenSupply := 2
  withdrawalFee := { numerator := 1, denominator := 2 } }

/-- 1 lamport backing 10 droplets: a 1-droplet withdrawal rounds to 0
lamports. -/
def poolTiny : StakePool := { poolOneToOne with
  totalStakeLamports := 1
  poolTokenSupply := 10 }

/-- Maximal u64 total stake over a 1-droplet supply: the payout for a large
withdrawal overflows a u64. -/
def poolHugeStake : StakePool := { poolOneToOne with
  totalStakeLamports := 2 ^ 64 - 1
  poolTokenSupply := 1 }

/-- Maximal u64 token supply over 1 lamport of stake: a large deposit mints
an amount whose fee overflows a u64. -/
def poolHugeSupply : StakePool := { poolOneToOne with
  totalStakeLamports := 1
  poolTokenSupply := 2 ^ 64 - 1 }

/-- Non-empty stake but zero droplet supply (the state of a pool before any
deposit). -/
def poolSupplyZero : StakePool := { poolOneToOne with
  totalStakeLamports := 5
  poolTokenSupply := 0 }

/-- Zero stake and zero supply. -/
def poolAllZero : StakePool := { poolOneToOne with
  totalStakeLamports := 0
  poolTokenSupply := 0 }

/-- Zero total stake but non-zero supply: the inverse estimator divides by
zero. -/
def poolNoStake : StakePool := { poolOneToOne with
  totalStakeLamports := 0
  poolTokenSupply := 1 }

/-- Validator with 100 active stake lamports. -/
def val100 : ValidatorStakeInfo :=
  { voteAccountAddress := 0, activeStakeLamports := 100, transientStakeLamports := 0,
    lastUpdateEpoch := 0 }

/-- Validator with 50 active stake lamports — the lightest of the example
trio. -/
def val50 : ValidatorStakeInfo :=
  { voteAccountAddress := 1, activeStakeLamports := 50, transientStakeLamports := 0,
    lastUpdateEpoch := 0 }

/-- Validator with 200 active stake lamports. -/
def val200 : ValidatorStakeInfo :=
  { voteAccountAddress := 2, activeStakeLamports := 200, transientStakeLamports := 0,
    lastUpdateEpoch := 0 }

/-- Validator with no stake at all: contributes nothing to a withdrawal. -/
def valIdle : ValidatorStakeInfo :=
  { voteAccountAddress := 3, activeStakeLamports := 0, transientStakeLamports := 0,
    lastUpdateEpoch := 0 }

/-- Validator with 10 active stake lamports. -/
def valActiveTen : ValidatorStakeInfo :=
  { voteAccountAddress := 3, activeStakeLamports := 10, transientStakeLamports := 0,
    lastUpdateEpoch := 0 }

/-- C1 (amended): for every pool snapshot and requested amount,
`calcWithdrawalReceipt` returns `dropletsFeePaid = floor(num * droplets /
denom)` when the fee has non-zero numerator and denominator and 0 otherwise;
with `burnt = droplets - feePaid` and `numerator = burnt * totalStaked` it
returns `lamportsReceived = 0` when `numerator < tokenSupply` or
`tokenSupply = 0` and `ceilDiv(numerator, tokenSupply)` otherwise; and
`dropletsUnstaked` equals the input — PROVIDED the input and the computed fee
and payout fit in a u64.  (The claim's final clause "no branch is an error"
fails without that proviso: see the counterexample, where the `Numberu64`
conversion assertion fires.) -/
theorem c1_withdrawal_receipt_formulas (d : Nat) (sp : StakePool)
    (hd : d < U64LIMIT)
    (hfee : specWithdrawalFee d sp < U64LIMIT)
    (hlam : specWithdrawalLamports d sp < U64LIMIT) :
    calcWithdrawalReceiptE d sp =
      .ok { dropletsUnstaked := d, lamportsReceived := specWithdrawalLamports d sp,
            dropletsFeePaid := specWithdrawalFee d sp } := by
  rw [calcWithdrawalReceiptE_eq, if_pos ⟨hfee, hd, hlam⟩]

/-- Witness for C1 at a concrete input: 1 droplet against `poolSmall` pays
fee 0 and receives `ceilDiv(1 * 3, 2) = 2` lamports. -/
theorem c1_witness :
    calcWithdrawalReceiptE 1 poolSmall =
      .ok { dropletsUnstaked := 1, lamportsReceived := 2, dropletsFeePaid := 0 } :=
  c1_withdrawal_receipt_formulas 1 poolSmall (by decide) (by decide) (by decide)

/-- Counterexample to C1 as stated ("no branch is an error"): withdrawing
2^64 - 1 droplets from a fee-free pool with 2^64 - 1 total stake lamports and
supply 1 computes a payout of (2^64 - 1)^2 lamports, and the `Numberu64`
conversion assertion throws. -/
theorem c1_counterexample :
    calcWithdrawalReceiptE (2 ^ 64 - 1) poolHugeStake = .error .numberu64TooLarge := by
  rfl

/-- C2 (amended): for every pool with non-zero total stake, fee fraction
below 1 and referral percent at most 100, `calcDeposit` returns
`minted = floor(lamportsIn * tokenSupply / totalStaked)`,
`dropletsFeePaid = floor(fee.num * minted / fee.denom)` (0 for a zero fee),
`referralFeePaid = floor(feePaid * referralPercent / 100)` and
`dropletsReceived = minted - feePaid` — PROVIDED the fee and the received
droplets fit in a u64 (the claim fails without the proviso: see the
counterexample); and `calcSolDeposit` / `calcStakeDeposit` are exactly
`calcDeposit` applied to the pool's SOL / stake fee-and-referral pairs. -/
theorem c2_deposit_formulas (l : Nat) (sp : StakePool) (fee : Fee) (ref : Nat)
    (hT : sp.totalStakeLamports ≠ 0)
    (hfrac : fee.numerator < fee.denominator)
    (href : ref ≤ 100)
    (hfee : specDepositFee (specDepositMinted l sp) fee < U64LIMIT)
    (hrecv : specDepositMinted l sp - specDepositFee (specDepositMinted l sp) fee < U64LIMIT) :
    calcDepositE l sp fee ref =
      .ok { lamportsStaked := l,
            dropletsReceived :=
              specDepositMinted l sp - specDepositFee (specDepositMinted l sp) fee,
            dropletsFeePaid := specDepositFee (specDepositMinted l sp) fee,
            referralFeePaid := specDepositFee (specDepositMinted l sp) fee * ref / 100 } ∧
    (∀ (l' : Nat) (sp' : StakePool),
      calcSolDepositE l' sp' = calcDepositE l' sp' sp'.solDepositFee sp'.solReferralFee) ∧
    (∀ (l' : Nat) (sp' : StakePool),
      calcStakeDepositE l' sp' = calcDepositE l' sp' sp'.stakeDepositFee sp'.stakeReferralFee) := by
  refine ⟨?_, fun l' sp' => rfl, fun l' sp' => rfl⟩
  have hle := specDepositFee_le (specDepositMinted l sp) fee hfrac
  have hcast : ((specDepositMinted l sp : Int) -
      (specDepositFee (specDepositMinted l sp) fee : Int)).natAbs =
      specDepositMinted l sp - specDepositFee (specDepositMinted l sp) fee := by
    omega
  have hreffit : specDepositFee (specDepositMinted l sp) fee * ref / 100 < U64LIMIT := by
    have h1 : specDepositFee (specDepositMinted l sp) fee * ref ≤
        specDepositFee (specDepositMinted l sp) fee * 100 :=
      Nat.mul_le_mul_left _ href
    have h2 : specDepositFee (specDepositMinted l sp) fee * ref / 100 ≤
        specDepositFee (specDepositMinted l sp) fee * 100 / 100 :=
      Nat.div_le_div_right h1
    rw [Nat.mul_div_cancel _ (by omega)] at h2
    omega
  rw [calcDepositE_eq l sp fee ref hT, hcast, if_pos ⟨hfee, hreffit, by omega⟩]

/-- Witness for C2 at a concrete input: depositing 1000 lamports into the 1:1
pool with a 1% fee and 50% referral yields minted 1000, fee 10, referral 5,
received 990. -/
theorem c2_witness :
    calcDepositE 1000 poolOneToOne { numerator := 1, denominator := 100 } 50 =
      .ok { lamportsStaked := 1000, dropletsReceived := 990, dropletsFeePaid := 10,
            referralFeePaid := 5 } :=
  (c2_deposit_formulas 1000 poolOneToOne { numerator := 1, denominator := 100 } 50
    (by decide) (by decide) (by decide) (by decide) (by decide)).1

/-- Counterexample to C2 as stated: with totalStaked = 1 > 0, fee 1/2 < 1 and
referral 0, depositing 2^64 - 1 lamports into a pool with supply 2^64 - 1
mints (2^64 - 1)^2 droplets, and levying the fee trips the `Numberu64`
conversion assertion instead of returning a receipt. -/
theorem c2_counterexample :
    calcDepositE (2 ^ 64 - 1) poolHugeSupply { numerator := 1, denominator := 2 } 0 =
      .error .numberu64TooLarge := by
  rfl

/-- C7: the spec's special case "if totalStaked == 0 or tokenSupply == 0 the
price is 1:1 (minted = lamportsIn)" is absent from the code, which divides by
`totalStakeLamports` unconditionally: with tokenSupply = 0 it mints 0
droplets (so a 7-lamport deposit receives 0, not 7), and with
totalStaked = 0 it throws a bn.js division-by-zero assertion. -/
theorem c7_no_empty_pool_special_case :
    calcDepositE 7 poolSupplyZero zeroFee 0 =
      .ok { lamportsStaked := 7, dropletsReceived := 0, dropletsFeePaid := 0,
            referralFeePaid := 0 } ∧
    calcDepositE 7 poolAllZero zeroFee 0 = .error .divisionByZero := by
  exact ⟨rfl, rfl⟩

/-- C8 (amended): on a pool with non-zero supply and a fee fraction below 1,
a successful `calcWithdrawalReceipt` never pays more than the FEE-FREE payout
computed with the same ceiling division,
`ceilDiv(amount * totalStaked, tokenSupply)`.  (The claim's bound with floor
division fails by one lamport — see the counterexample.) -/
theorem c8_fee_only_reduces_payout (d : Nat) (sp : StakePool) (r : WithdrawalReceipt)
    (_hS : sp.poolTokenSupply ≠ 0)
    (hfrac : sp.withdrawalFee.numerator < sp.withdrawalFee.denominator)
    (h : calcWithdrawalReceiptE d sp = .ok r) :
    r.lamportsReceived ≤
      (d * sp.totalStakeLamports + sp.poolTokenSupply - 1) / sp.poolTokenSupply := by
  rw [calcWithdrawalReceiptE_eq] at h
  split at h
  case isFalse => exact absurd h (by simp)
  case isTrue hfits =>
    cases h
    show specWithdrawalLamports d sp ≤ _
    unfold specWithdrawalLamports
    split
    · exact Nat.zero_le _
    next hcond =>
      have hfee_le := specWithdrawalFee_le d sp hfrac
      have hnum : specWithdrawalNum d sp =
          (((d - specWithdrawalFee d sp) * sp.totalStakeLamports : Nat) : Int) := by
        unfold specWithdrawalNum
        rw [← Nat.cast_sub hfee_le, ← Nat.cast_mul]
      rw [hnum, Int.toNat_natCast]
      apply Nat.div_le_div_right
      have hmul : (d - specWithdrawalFee d sp) * sp.totalStakeLamports ≤
          d * sp.totalStakeLamports :=
        Nat.mul_le_mul_right _ (Nat.sub_le d _)
      omega

/-- Witness for C8 at a concrete input: against `poolSmall`, 1 droplet pays
2 lamports, within the ceiling bound `ceilDiv(1 * 3, 2) = 2`. -/
theorem c8_witness :
    (({ dropletsUnstaked := 1, lamportsReceived := 2, dropletsFeePaid := 0 } :
        WithdrawalReceipt)).lamportsReceived ≤
      (1 * poolSmall.totalStakeLamports + poolSmall.poolTokenSupply - 1) /
        poolSmall.poolTokenSupply :=
  c8_fee_only_reduces_payout 1 poolSmall
    { dropletsUnstaked := 1, lamportsReceived := 2, dropletsFeePaid := 0 }
    (by decide) (by decide) (by rfl)

/-- Counterexample to C8 as stated: against `poolSmall` (supply 2, fee 1/2 <
1), withdrawing 1 droplet receives 2 lamports, which exceeds the claimed
integer-division bound `1 * 3 / 2 = 1`. -/
theorem c8_counterexample :
    calcWithdrawalReceiptE 1 poolSmall =
      .ok { dropletsUnstaked := 1, lamportsReceived := 2, dropletsFeePaid := 0 } ∧
    1 * poolSmall.totalStakeLamports / poolSmall.poolTokenSupply < 2 := by
  exact ⟨rfl, by decide⟩

/-- C3: whenever `calcWithdrawals` returns a receipt array (either the
single-receipt reserve path or the per-validator loop), the receipts'
`dropletsUnstaked` sum to the requested total exactly — no droplets are lost
or fabricated. -/
theorem c3_allocator_conservation (d : Nat) (sp : StakePool)
    (vs : List ValidatorStakeInfo) (res : List ValidatorWithdrawalReceipt)
    (h : calcWithdrawalsE d sp vs = .ok res) :
    (res.map fun x => x.withdrawalReceipt.dropletsUnstaked).sum = d := by
  unfold calcWithdrawalsE at h
  split at h
  · split at h
    next e heq => exact absurd h (by simp)
    next r heq =>
      cases h
      rw [calcWithdrawalReceiptE_eq] at heq
      split at heq
      · cases heq
        simp
      · exact absurd heq (by simp)
  · exact goWithdraw_ok_sum sp _ d res h

/-- Witness for C3 at a concrete input: the single receipt produced for a
10-droplet withdrawal against `poolOneToOne` carries all 10 droplets. -/
theorem c3_witness :
    (([{ stakeAccount := .main 1,
         withdrawalReceipt := { dropletsUnstaked := 10, lamportsReceived := 10,
                                dropletsFeePaid := 0 } }] :
      List ValidatorWithdrawalReceipt).map
        fun x => x.withdrawalReceipt.dropletsUnstaked).sum = 10 :=
  c3_allocator_conservation 10 poolOneToOne [val100, val50, val200] _ (by rfl)

/-- C4 (amended): with a non-empty validator list — whose per-validator
balances and their sums fit in a u64, so that the source's `Numberu64`
conversions during sorting cannot assert — `calcWithdrawals` throws
`WithdrawalUnserviceableError` exactly when the loop condition holds:
(a) some validator reached with a non-zero remainder triggers a rounding
overdraw (its receipt's `lamportsReceived` exceeds the available lamports),
or (b) every validator is iterated with all arithmetic succeeding and the
remaining droplets are still non-zero.  In all other cases it returns
normally or propagates a bn.js arithmetic assertion (a different error —
see the counterexample, where `totalStakeLamports = 0` raises
division-by-zero instead). -/
theorem c4_unserviceable_characterisation (d : Nat) (sp : StakePool)
    (vs : List ValidatorStakeInfo) (hne : vs ≠ [])
    (_hu64 : ∀ v ∈ vs,
      v.activeStakeLamports + v.transientStakeLamports < U64LIMIT) :
    (calcWithdrawalsE d sp vs = .error .withdrawalUnserviceable ↔
      unservCondGo sp ((validatorsByTotalStakeAsc vs).map stakeAvailableToWithdraw) d) := by
  unfold calcWithdrawalsE
  rw [if_neg (fun hlt => hne (List.length_eq_zero.mp (Nat.lt_one_iff.mp hlt)))]
  exact goWithdraw_unserviceable_iff sp _ d

/-- Witness for C4 at a concrete input: a single validator with neither
active nor transient stake cannot service a 5-droplet request, and the
characterisation transports the unserviceable error to the loop condition. -/
theorem c4_witness :
    unservCondGo poolOneToOne
      ((validatorsByTotalStakeAsc [valIdle]).map stakeAvailableToWithdraw) 5 :=
  (c4_unserviceable_characterisation 5 poolOneToOne [valIdle]
    (by decide) (by decide)).mp (by rfl)

/-- Counterexample to C4 as stated ("in all other cases it returns
normally"): with `totalStakeLamports = 0` and one staked validator, the
inverse estimator divides by zero, so `calcWithdrawals` neither returns nor
throws `WithdrawalUnserviceableError` — it propagates a bn.js
division-by-zero assertion. -/
theorem c4_counterexample :
    calcWithdrawalsE 5 poolNoStake [valActiveTen] = .error .divisionByZero ∧
    CalcError.divisionByZero ≠ CalcError.withdrawalUnserviceable := by
  exact ⟨rfl, by decide⟩

/-- C5: `calcWithdrawals` considers validators in ascending order of total
stake (`validatorsByTotalStakeAsc` sorts a permutation of the input
ascending by `active + transient`), the receipts it returns appear in that
order (they project to a sublist of the sorted availability list), and for
validators with total stakes [100, 50, 200] a 10-droplet request against the
1:1 pool is serviced by a single receipt targeting the stake-50 validator's
stake account. -/
theorem c5_lightest_validators_first :
    (∀ vs : List ValidatorStakeInfo,
      List.Sorted totalStakeLE (validatorsByTotalStakeAsc vs) ∧
      (validatorsByTotalStakeAsc vs).Perm vs) ∧
    (∀ (d : Nat) (sp : StakePool) (vs : List ValidatorStakeInfo)
      (res : List ValidatorWithdrawalReceipt), vs ≠ [] →
      calcWithdrawalsE d sp vs = .ok res →
      List.Sublist (res.map fun x => x.stakeAccount)
        (((validatorsByTotalStakeAsc vs).map stakeAvailableToWithdraw).map
          fun a => a.stakeAccount)) ∧
    calcWithdrawalsE 10 poolOneToOne [val100, val50, val200] =
      .ok [{ stakeAccount := .main 1,
             withdrawalReceipt := { dropletsUnstaked := 10, lamportsReceived := 10,
                                    dropletsFeePaid := 0 } }] := by
  refine ⟨fun vs => ⟨?_, List.perm_insertionSort totalStakeLE vs⟩, ?_, by rfl⟩
  · haveI : IsTotal ValidatorStakeInfo totalStakeLE :=
      ⟨fun a b => Nat.le_total (validatorTotalStake a) (validatorTotalStake b)⟩
    haveI : IsTrans ValidatorStakeInfo totalStakeLE :=
      ⟨fun _ _ _ hab hbc => Nat.le_trans hab hbc⟩
    exact List.sorted_insertionSort totalStakeLE vs
  · intro d sp vs res hne h
    unfold calcWithdrawalsE at h
    rw [if_neg (fun hlt => hne (List.length_eq_zero.mp (Nat.lt_one_iff.mp hlt)))] at h
    exact goWithdraw_ok_sublist sp _ d res h

/-- Witness for C5's ordering conjunct at a concrete input: the single
receipt of the example run draws from an account of the sorted availability
list in order. -/
theorem c5_witness :
    List.Sublist
      (([{ stakeAccount := .main 1,
           withdrawalReceipt := { dropletsUnstaked := 10, lamportsReceived := 10,
                                  dropletsFeePaid := 0 } }] :
        List ValidatorWithdrawalReceipt).map fun x => x.stakeAccount)
      (((validatorsByTotalStakeAsc [val100, val50, val200]).map
        stakeAvailableToWithdraw).map fun a => a.stakeAccount) :=
  c5_lightest_validators_first.2.1 10 poolOneToOne [val100, val50, val200] _
    (by decide) (by rfl)

/-- C9: on an empty validator list `calcWithdrawals` returns exactly the
single receipt `calcWithdrawalReceipt` computes, drawn against the pool's
reserve account (errors of the receipt computation propagate unchanged); a
successful receipt unstakes the full requested amount; and this path never
throws `WithdrawalUnserviceableError`. -/
theorem c9_empty_list_reserve (d : Nat) (sp : StakePool) :
    calcWithdrawalsE d sp [] =
      Except.map (fun r => [{ stakeAccount := sp.reserveStake, withdrawalReceipt := r }])
        (calcWithdrawalReceiptE d sp) ∧
    (∀ r, calcWithdrawalReceiptE d sp = .ok r → r.dropletsUnstaked = d) ∧
    calcWithdrawalsE d sp [] ≠ .error .withdrawalUnserviceable := by
  refine ⟨?_, ?_, ?_⟩
  · unfold calcWithdrawalsE
    rw [if_pos (by simp)]
    cases h : calcWithdrawalReceiptE d sp <;> rfl
  · intro r hr
    rw [calcWithdrawalReceiptE_eq] at hr
    split at hr
    · cases hr
      rfl
    · exact absurd hr (by simp)
  · unfold calcWithdrawalsE
    rw [if_pos (by simp)]
    cases h : calcWithdrawalReceiptE d sp with
    | error e =>
      have := calcWithdrawalReceiptE_error h
      subst this
      simp
    | ok r => simp

/-- Witness for C9 at a concrete input: the 1-droplet receipt against
`poolTiny` unstakes the full droplet (even though it pays 0 lamports). -/
theorem c9_witness :
    ({ dropletsUnstaked := 1, lamportsReceived := 0, dropletsFeePaid := 0 } :
      WithdrawalReceipt).dropletsUnstaked = 1 :=
  (c9_empty_list_reserve 1 poolTiny).2.1
    { dropletsUnstaked := 1, lamportsReceived := 0, dropletsFeePaid := 0 } (by rfl)

/-- C10: on a successful non-empty-validator-list run every returned receipt
has non-zero `dropletsUnstaked` and non-zero `lamportsReceived` (the loop's
push guard), while the empty-list reserve path can return a receipt with
`lamportsReceived = 0` (1 droplet against `poolTiny` rounds to zero
lamports). -/
theorem c10_nonzero_receipts :
    (∀ (d : Nat) (sp : StakePool) (vs : List ValidatorStakeInfo)
      (res : List ValidatorWithdrawalReceipt), vs ≠ [] →
      calcWithdrawalsE d sp vs = .ok res →
      ∀ x ∈ res, x.withdrawalReceipt.dropletsUnstaked ≠ 0 ∧
        x.withdrawalReceipt.lamportsReceived ≠ 0) ∧
    calcWithdrawalsE 1 poolTiny [] =
      .ok [{ stakeAccount := .reserve,
             withdrawalReceipt := { dropletsUnstaked := 1, lamportsReceived := 0,
                                    dropletsFeePaid := 0 } }] := by
  refine ⟨?_, by rfl⟩
  intro d sp vs res hne h
  unfold calcWithdrawalsE at h
  rw [if_neg (fun hlt => hne (List.length_eq_zero.mp (Nat.lt_one_iff.mp hlt)))] at h
  exact goWithdraw_ok_mem sp _ d res h

/-- Witness for C10 at a concrete input: the example run's receipt has
non-zero droplets and lamports. -/
theorem c10_witness : (10 : Nat) ≠ 0 ∧ (10 : Nat) ≠ 0 :=
  c10_nonzero_receipts.1 10 poolOneToOne [val100, val50, val200]
    [{ stakeAccount := .main 1,
       withdrawalReceipt := { dropletsUnstaked := 10, lamportsReceived := 10,
                              dropletsFeePaid := 0 } }]
    (by decide) (by rfl)
    { stakeAccount := .main 1,
      withdrawalReceipt := { dropletsUnstaked := 10, lamportsReceived := 10,
                             dropletsFeePaid := 0 } }
    (by simp)

/-- A validator not yet refreshed for epoch 1. -/
def staleVal (vote : Nat) : ValidatorStakeInfo :=
  { voteAccountAddress := vote, activeStakeLamports := 0, transientStakeLamports := 0,
    lastUpdateEpoch := 0 }

/-- A validator already refreshed for epoch 1. -/
def currentVal (vote : Nat) : ValidatorStakeInfo :=
  { voteAccountAddress := vote, activeStakeLamports := 0, transientStakeLamports := 0,
    lastUpdateEpoch := 1 }

/-- Ten validators of which only the first and the last still need an update
for epoch 1. -/
def scatteredVals : List ValidatorStakeInfo :=
  [staleVal 0, currentVal 1, currentVal 2, currentVal 3, currentVal 4,
   currentVal 5, currentVal 6, currentVal 7, currentVal 8, staleVal 9]

/-- C6 (amended): when every one of the N validators needs an update, the
builder emits exactly `ceil(N/5)` validator-refresh transactions (for
scattered stale validators the chunking can emit more — see the
counterexample); when the snapshot is stale the whole refresh sequence is
placed before the action batch and the executor's trace runs every refresh
submission and confirmation before the action batch's submissions — the
per-batch `await` barrier of `signAndSendTransactionSequence`; when the
snapshot is current no refresh batch is emitted at all. -/
theorem c6_refresh_sequencing :
    (∀ (validators : List ValidatorStakeInfo) (currentEpoch : Nat),
      (∀ v ∈ validators, v.lastUpdateEpoch < currentEpoch) →
      (updateValidatorListBalanceTxs validators currentEpoch).length =
        (validators.length + 4) / 5) ∧
    (∀ (sp : StakePool) (currentEpoch : Nat) (validators : List ValidatorStakeInfo)
      (actionBatch : TxBatch), sp.lastUpdateEpoch < currentEpoch →
      signAndSendTrace (buildActionSequence sp currentEpoch validators [actionBatch]) =
        execTraceGo 0 (updateTransactionSequence validators currentEpoch) ++
          (actionBatch.map
            (ExecEvent.submit (updateTransactionSequence validators currentEpoch).length) ++
           actionBatch.map
            (ExecEvent.confirm (updateTransactionSequence validators currentEpoch).length))) ∧
    (∀ (sp : StakePool) (currentEpoch : Nat) (validators : List ValidatorStakeInfo)
      (actionBatch : TxBatch), ¬ sp.lastUpdateEpoch < currentEpoch →
      buildActionSequence sp currentEpoch validators [actionBatch] = [actionBatch]) := by
  refine ⟨?_, ?_, ?_⟩
  · intro validators currentEpoch hstale
    unfold updateValidatorListBalanceTxs
    rw [updateChunksGo_all_stale validators currentEpoch hstale (validators.length + 1) 0
      (by omega)]
    rw [Nat.sub_zero]
  · intro sp currentEpoch validators actionBatch hstale
    unfold signAndSendTrace buildActionSequence
    rw [if_pos hstale, execTraceGo_append]
    congr 1
    simp [execTraceGo]
  · intro sp currentEpoch validators actionBatch hcurrent
    unfold buildActionSequence
    rw [if_neg hcurrent]

/-- Witness for C6's batch count at a concrete input: three all-stale
validators at epoch 1 need `ceil(3/5) = 1` refresh transaction. -/
theorem c6_witness :
    (updateValidatorListBalanceTxs [staleVal 0, staleVal 1, staleVal 2] 1).length =
      (3 + 4) / 5 :=
  c6_refresh_sequencing.1 [staleVal 0, staleVal 1, staleVal 2] 1 (by decide)

/-- Counterexample to C6 as stated: `scatteredVals` has N = 2 validators
needing update, so the claim predicts `ceil(2/5) = 1` refresh batch, but the
chunking — which skips already-current validators only at the head of each
scan and then covers 5 contiguous list slots — emits 2 transactions. -/
theorem c6_counterexample :
    (scatteredVals.filter fun v => v.lastUpdateEpoch < 1).length = 2 ∧
    (updateValidatorListBalanceTxs scatteredVals 1).length = 2 ∧
    (2 + 4) / 5 = 1 := by
  exact ⟨rfl, rfl, rfl⟩
